import Mathlib

/-!
Verification of the elk-notifier delivery/retry logic (src/app.js).

The program is a single Node.js script with two flows against an
Elasticsearch store and a Slack client:
  * an unsent-queue drainer (the IIFE at the top of app.js) that walks the
    `unsent-slacks` index, re-sends each entry, deletes it on success and
    throws (aborting the task) on any failure;
  * a per-category alert dispatcher (the forEach over the five alert types)
    that, for each fetched record, decodes the embedded sub-alert list,
    formats and sends each sub-alert, requeues a failed sub-alert into the
    unsent index, and finally deletes the parent record.

The embedding below renders each flow as a pure function producing a trace
of the externally observable calls (Slack sends, waits, ES inserts and
deletes), with the responses of the external collaborators (Slack, ES,
JSON.parse of the stored text) supplied by oracle parameters.  Within one
task the source awaits every call before issuing the next, so a linear
trace is a faithful model of a single task.
-/

namespace ElkNotifier

/-- JS `s.repeat:` the n-fold concatenation of a string. -/
def jsRepeat (s : String) : Nat → String
  | 0 => ""
  | n + 1 => jsRepeat s n ++ s

/-- Rendering of a JS number by template-literal interpolation.  JS numbers
are IEEE-754 doubles; we embed them as exact rationals.  Every numeric value
evaluated concretely below is integral after the arithmetic involved
(0.92 * 100 is exactly 92.0 as a double: the exact product 92 + 36/2^53 lies
0.28125 ulp above 92 and rounds down), and JS prints an integral double with
no decimal point.  The non-integral branch is never exercised here. -/
def jsNumToString (q : ℚ) : String :=
  if q.den = 1 then toString q.num else toString q

/-- The fields of a decoded sub-alert document read by the program.  Each
field records one JS access path on `alert._source`. -/
structure SubAlertSource where
  /-- `alert._source.host` -/
  host : String
  /-- `alert._source.log.file.path` -/
  logFilePath : String
  /-- `alert._source.message` -/
  message : String
  /-- `alert._source.system.filesystem.mount_point` -/
  fsMountPoint : String
  /-- `alert._source.system.filesystem.used.pct` -/
  fsUsedPct : ℚ
  /-- `alert._source.system.memory.actual.used.pct` -/
  memUsedPct : ℚ
  /-- `alert._source.system.service.name` -/
  serviceName : String
  /-- `alert._source.system.service.state` -/
  serviceState : String
  /-- `alert._source.container.name` -/
  containerName : String
  /-- `alert._source.docker.container.status` -/
  dockerContainerStatus : String
  deriving DecidableEq, Repr

/-- The five hardcoded alert categories (entries of the array at app.js:55). -/
inductive AlertCategory
  | logErrors
  | diskSpace
  | memoryUsage
  | systemd
  | dockerUnhealthyContainer
  deriving DecidableEq, Repr

/-- `esIndex` of each array entry. -/
def esIndexOf : AlertCategory → String
  | AlertCategory.logErrors => "alerts-log-errors"
  | AlertCategory.diskSpace => "alerts-disk-space"
  | AlertCategory.memoryUsage => "alerts-memory-usage"
  | AlertCategory.systemd => "alerts-systemd"
  | AlertCategory.dockerUnhealthyContainer => "alerts-docker-unhealthy-container"

/-- `getSubjectFunc` of each array entry (app.js:58-95). -/
def getSubjectFunc : AlertCategory → SubAlertSource → String
  | AlertCategory.logErrors, a => a.logFilePath
  | AlertCategory.diskSpace, a => "High disk usage on " ++ a.fsMountPoint
  | AlertCategory.memoryUsage, _ => "High memory usage"
  | AlertCategory.systemd, _ => "Down systemd service"
  | AlertCategory.dockerUnhealthyContainer, _ => "Unhealthy docker container"

/-- `getMessageFunc` of each array entry (app.js:61-98). -/
def getMessageFunc : AlertCategory → SubAlertSource → String
  | AlertCategory.logErrors, a => a.message
  | AlertCategory.diskSpace, a => jsNumToString (a.fsUsedPct * 100) ++ "%"
  | AlertCategory.memoryUsage, a => jsNumToString (a.memUsedPct * 100) ++ "%"
  | AlertCategory.systemd, a => a.serviceName ++ " is " ++ a.serviceState
  | AlertCategory.dockerUnhealthyContainer, a =>
      a.containerName ++ " is " ++ a.dockerContainerStatus

/-- The formatter table exactly as the specification states it (§4.3),
subject column, for comparison with `getSubjectFunc`. -/
def specSubject : AlertCategory → SubAlertSource → String
  | AlertCategory.logErrors, a => a.logFilePath
  | AlertCategory.diskSpace, a => "High disk usage on " ++ a.fsMountPoint
  | AlertCategory.memoryUsage, _ => "High memory usage"
  | AlertCategory.systemd, _ => "Down systemd service"
  | AlertCategory.dockerUnhealthyContainer, _ => "Unhealthy docker container"

/-- The formatter table exactly as the specification states it (§4.3),
body column, for comparison with `getMessageFunc`. -/
def specBody : AlertCategory → SubAlertSource → String
  | AlertCategory.logErrors, a => a.message
  | AlertCategory.diskSpace, a => jsNumToString (a.fsUsedPct * 100) ++ "%"
  | AlertCategory.memoryUsage, a => jsNumToString (a.memUsedPct * 100) ++ "%"
  | AlertCategory.systemd, a => a.serviceName ++ " is " ++ a.serviceState
  | AlertCategory.dockerUnhealthyContainer, a =>
      a.containerName ++ " is " ++ a.dockerContainerStatus

/-- Outcome of one `slackClient.chat.postMessage` call: resolves with
`{ok:true}`, resolves with `{ok:false}`, or rejects (network failure). -/
inductive SendResult
  | ok
  | notOk
  | transportError
  deriving DecidableEq, Repr

/-- Outcome of one `esClient.index` call. -/
inductive InsertResult
  | ok
  | storeUnavailable
  deriving DecidableEq, Repr

/-- Outcome of one `esClient.delete` call: success, a 404 rejection for an
already-removed document, or a store failure. -/
inductive DeleteResult
  | ok
  | notFound
  | storeUnavailable
  deriving DecidableEq, Repr

/-- The body persisted to the `unsent-slacks` index (app.js:131-135). -/
structure UnsentMessage where
  host : String
  subject : String
  message : String
  deriving DecidableEq, Repr

/-- One externally observable call of a task, with the collaborator's
response.  Every `send` goes to the fixed channel `#alerts-and-notifications`;
`wait` is a `setTimeout` suspension of `ms` milliseconds. -/
inductive Event
  | send (text : String) (res : SendResult)
  | wait (ms : Nat)
  | insertUnsent (m : UnsentMessage) (res : InsertResult)
  | deleteRecord (id : String) (res : DeleteResult)
  | deleteUnsent (id : String) (res : DeleteResult)
  deriving DecidableEq, Repr

/-- Responses of the external collaborators, indexed by how many calls of
that kind the task has made so far. -/
structure World where
  sendRes : Nat → SendResult
  insertRes : Nat → InsertResult
  deleteRes : Nat → DeleteResult

/-- `slackGracePeriod` (app.js:17). -/
def slackGracePeriod : Nat := 5000

/-- The unsent-queue body built by the dispatcher for a failed sub-alert:
exactly the host and the formatter outputs, nothing else (app.js:131-135). -/
def mkUnsent (cat : AlertCategory) (a : SubAlertSource) : UnsentMessage :=
  { host := a.host
    subject := getSubjectFunc cat a
    message := getMessageFunc cat a }

/-- The text the dispatcher sends to Slack (app.js:117): the repeated
`:anger:` banner decorates the sent text only. -/
def dispatchText (subject host message : String) : String :=
  jsRepeat ":anger: " 4 ++ "\n*" ++ subject ++ "*\n" ++ host ++ "\n\n" ++ message

/-- A fetched alert record: `hit._id` and the encoded text
`hit._source.alertContexts`. -/
structure AlertRecord where
  id : String
  alertContexts : String
  deriving DecidableEq, Repr

/-- Result of the dispatcher's inner per-sub-alert loop: the trace of calls,
the send/insert call counters afterwards, and whether the loop ran to
completion (`false` when an uncaught exception escaped it). -/
structure DispatchResult where
  trace : List Event
  sendIdx : Nat
  insertIdx : Nat
  completed : Bool
  deriving DecidableEq, Repr

/-- Result of processing one alert record (decode, inner loop, record
delete). -/
structure RecordResult where
  trace : List Event
  sendIdx : Nat
  insertIdx : Nat
  deleteIdx : Nat
  completed : Bool
  deriving DecidableEq, Repr

/-- Result of a whole task: trace plus whether it finished without an
uncaught exception. -/
structure RunResult where
  trace : List Event
  completed : Bool
  deriving DecidableEq, Repr

/-- The dispatcher's `for (const alert of JSON.parse(...))` loop
(app.js:110-138).  For each sub-alert: compute host/subject/message, post to
Slack; on `{ok:true}` wait the grace period and continue; otherwise (a
`{ok:false}` acknowledgment throws at app.js:122, a transport failure
rejects at app.js:115 — both land in the same catch) insert the formatted
message into the unsent index; a failing insert is uncaught and aborts the
loop. -/
def dispatchSubAlerts (cat : AlertCategory) (w : World) :
    List SubAlertSource → Nat → Nat → DispatchResult
  | [], si, ii => ⟨[], si, ii, true⟩
  | a :: rest, si, ii =>
    let text := dispatchText (getSubjectFunc cat a) a.host (getMessageFunc cat a)
    match w.sendRes si with
    | SendResult.ok =>
      let r := dispatchSubAlerts cat w rest (si + 1) ii
      ⟨Event.send text SendResult.ok :: Event.wait slackGracePeriod :: r.trace,
        r.sendIdx, r.insertIdx, r.completed⟩
    | fr =>
      match w.insertRes ii with
      | InsertResult.ok =>
        let r := dispatchSubAlerts cat w rest (si + 1) (ii + 1)
        ⟨Event.send text fr :: Event.insertUnsent (mkUnsent cat a) InsertResult.ok :: r.trace,
          r.sendIdx, r.insertIdx, r.completed⟩
      | InsertResult.storeUnavailable =>
        ⟨[Event.send text fr, Event.insertUnsent (mkUnsent cat a) InsertResult.storeUnavailable],
          si + 1, ii + 1, false⟩

/-- Processing of one fetched record (app.js:108-144): decode the embedded
sub-alert list (`JSON.parse` is host-runtime functionality, modeled by the
`jsonParse` oracle; `none` is a thrown `SyntaxError`, uncaught and fatal),
run the inner loop, then delete the parent record.  The delete is not
wrapped in any try/catch, so a failing delete is an uncaught rejection. -/
def processRecord (cat : AlertCategory) (w : World)
    (jsonParse : String → Option (List SubAlertSource)) (record : AlertRecord)
    (si ii di : Nat) : RecordResult :=
  match jsonParse record.alertContexts with
  | none => ⟨[], si, ii, di, false⟩
  | some subs =>
    let r := dispatchSubAlerts cat w subs si ii
    if r.completed then
      match w.deleteRes di with
      | DeleteResult.ok =>
        ⟨r.trace ++ [Event.deleteRecord record.id DeleteResult.ok],
          r.sendIdx, r.insertIdx, di + 1, true⟩
      | dr =>
        ⟨r.trace ++ [Event.deleteRecord record.id dr],
          r.sendIdx, r.insertIdx, di + 1, false⟩
    else
      ⟨r.trace, r.sendIdx, r.insertIdx, di, false⟩

/-- The dispatcher's `for (const hit of result.hits.hits)` loop for one
category (app.js:108-144): records are processed in order; the first
uncaught exception aborts the whole async callback, so no later record is
touched. -/
def dispatchRecords (cat : AlertCategory) (w : World)
    (jsonParse : String → Option (List SubAlertSource)) :
    List AlertRecord → Nat → Nat → Nat → RunResult
  | [], _, _, _ => ⟨[], true⟩
  | record :: rest, si, ii, di =>
    let r := processRecord cat w jsonParse record si ii di
    if r.completed then
      let r2 := dispatchRecords cat w jsonParse rest r.sendIdx r.insertIdx r.deleteIdx
      ⟨r.trace ++ r2.trace, r2.completed⟩
    else
      ⟨r.trace, false⟩

/-- One fetched entry of the `unsent-slacks` index: `hit._id` and the
persisted `{host, subject, message}` body. -/
structure UnsentHit where
  id : String
  src : UnsentMessage
  deriving DecidableEq, Repr

/-- The `message` variable of the drainer (app.js:32): the stored message
behind a fixed late-delivery notice. -/
def drainMessageText (m : UnsentMessage) : String :=
  "<< This message failed to send in a timely manner >>\n\n" ++ m.message

/-- The text the drainer sends to Slack (app.js:35). -/
def drainText (m : UnsentMessage) : String :=
  jsRepeat ":hourglass_flowing_sand: " 4 ++ "\n*" ++ m.subject ++ "*\n" ++ m.host
    ++ "\n\n" ++ drainMessageText m

/-- The drainer loop (app.js:28-50).  For each entry: post to Slack; a
`{ok:false}` acknowledgment throws (app.js:40) and a transport failure
rejects — either is uncaught and stops the task; on `{ok:true}` delete the
entry (uncaught on failure) and then wait the grace period before the next
entry. -/
def drainUnsent (w : World) : List UnsentHit → Nat → Nat → RunResult
  | [], _, _ => ⟨[], true⟩
  | x :: rest, si, di =>
    match w.sendRes si with
    | SendResult.ok =>
      match w.deleteRes di with
      | DeleteResult.ok =>
        let r := drainUnsent w rest (si + 1) (di + 1)
        ⟨Event.send (drainText x.src) SendResult.ok
            :: Event.deleteUnsent x.id DeleteResult.ok
            :: Event.wait slackGracePeriod :: r.trace, r.completed⟩
      | dr =>
        ⟨[Event.send (drainText x.src) SendResult.ok, Event.deleteUnsent x.id dr], false⟩
    | fr =>
      ⟨[Event.send (drainText x.src) fr], false⟩

/-! ### Trace observations -/

/-- The event is a Slack send (of any outcome). -/
def isSendEvt : Event → Bool
  | Event.send _ _ => true
  | _ => false

/-- The event is a Slack send acknowledged `{ok:true}`. -/
def isSendOk : Event → Bool
  | Event.send _ SendResult.ok => true
  | _ => false

/-- The event is a failed Slack send (`{ok:false}` or transport failure). -/
def isSendFail : Event → Bool
  | Event.send _ SendResult.notOk => true
  | Event.send _ SendResult.transportError => true
  | _ => false

/-- The event is an insert into the unsent index (of any outcome). -/
def isInsertEvt : Event → Bool
  | Event.insertUnsent _ _ => true
  | _ => false

/-- The event is a successful insert into the unsent index. -/
def isInsertOk : Event → Bool
  | Event.insertUnsent _ InsertResult.ok => true
  | _ => false

/-- The event is a failed insert into the unsent index. -/
def isInsertFail : Event → Bool
  | Event.insertUnsent _ InsertResult.storeUnavailable => true
  | _ => false

/-- The event is a delete of a source alert record (of any outcome). -/
def isDeleteRecordEvt : Event → Bool
  | Event.deleteRecord _ _ => true
  | _ => false

/-- The event is a successful delete of a source alert record. -/
def isDeleteRecordOk : Event → Bool
  | Event.deleteRecord _ DeleteResult.ok => true
  | _ => false

/-- The event is a delete of an unsent-queue entry (of any outcome). -/
def isDeleteUnsentEvt : Event → Bool
  | Event.deleteUnsent _ _ => true
  | _ => false

/-- No send occurs in the list before a full grace-period wait does. -/
def noSendBeforeGrace : List Event → Bool
  | [] => true
  | Event.send _ _ :: _ => false
  | Event.wait n :: es => if n = slackGracePeriod then true else noSendBeforeGrace es
  | _ :: es => noSendBeforeGrace es

/-- Between every send and any later send, a full grace-period wait occurs. -/
def graceSeparated : List Event → Bool
  | [] => true
  | Event.send _ _ :: es => noSendBeforeGrace es && graceSeparated es
  | _ :: es => graceSeparated es

/-- Every delete of an unsent-queue entry is immediately preceded by a send
acknowledged `{ok:true}`. -/
def removalPairing : List Event → Bool
  | [] => true
  | Event.send _ SendResult.ok :: Event.deleteUnsent _ _ :: es => removalPairing es
  | Event.deleteUnsent _ _ :: _ => false
  | _ :: es => removalPairing es

/-- Forgets which kind of delivery failure a send suffered: `{ok:false}` and
a transport rejection are collapsed to one failure marker, successes are kept. -/
def censorSend : Event → Event
  | Event.send t SendResult.ok => Event.send t SendResult.ok
  | Event.send t _ => Event.send t SendResult.transportError
  | e => e

/-! ### Concrete sample inputs -/

/-- A sub-alert document with every field blank. -/
def blankSub : SubAlertSource :=
  { host := "", logFilePath := "", message := "", fsMountPoint := "", fsUsedPct := 0,
    memUsedPct := 0, serviceName := "", serviceState := "", containerName := "",
    dockerContainerStatus := "" }

/-- A disk-space sub-alert with `filesystem.used.pct = 0.92`. -/
def sampleDisk : SubAlertSource :=
  { blankSub with host := "web1", fsMountPoint := "/", fsUsedPct := 92 / 100 }

/-- A systemd sub-alert with `name = "nginx"`, `state = "failed"`. -/
def sampleSystemd : SubAlertSource :=
  { blankSub with host := "host1", serviceName := "nginx", serviceState := "failed" }

/-- Collaborators that always succeed. -/
def wAllOk : World :=
  ⟨fun _ => SendResult.ok, fun _ => InsertResult.ok, fun _ => DeleteResult.ok⟩

/-- Slack always acknowledges `{ok:false}`; the store always succeeds. -/
def wSendNotOk : World :=
  ⟨fun _ => SendResult.notOk, fun _ => InsertResult.ok, fun _ => DeleteResult.ok⟩

/-- Slack always fails at the transport level; the store always succeeds. -/
def wSendTransport : World :=
  ⟨fun _ => SendResult.transportError, fun _ => InsertResult.ok, fun _ => DeleteResult.ok⟩

/-- Slack acknowledges `{ok:false}` and the unsent-queue insert fails. -/
def wInsertFail : World :=
  ⟨fun _ => SendResult.notOk, fun _ => InsertResult.storeUnavailable, fun _ => DeleteResult.ok⟩

/-- Everything succeeds except deletes, which report the document missing. -/
def wDeleteNotFound : World :=
  ⟨fun _ => SendResult.ok, fun _ => InsertResult.ok, fun _ => DeleteResult.notFound⟩

/-- The first send succeeds, every later one is acknowledged `{ok:false}`;
the store always succeeds. -/
def wMixed : World :=
  ⟨fun n => if n = 0 then SendResult.ok else SendResult.notOk,
    fun _ => InsertResult.ok, fun _ => DeleteResult.ok⟩

/-- A `JSON.parse` oracle decoding every stored text to the empty list. -/
def parseEmpty : String → Option (List SubAlertSource) := fun _ => some []

/-- A `JSON.parse` oracle that throws on every stored text. -/
def parseFail : String → Option (List SubAlertSource) := fun _ => none

/-- A `JSON.parse` oracle decoding to one systemd sub-alert. -/
def parseSystemdOne : String → Option (List SubAlertSource) := fun _ => some [sampleSystemd]

/-- A `JSON.parse` oracle decoding to a systemd and a disk-space sub-alert. -/
def parseTwo : String → Option (List SubAlertSource) :=
  fun _ => some [sampleSystemd, sampleDisk]

/-- A fetched alert record. -/
def recA : AlertRecord := ⟨"a1", "ctx-a1"⟩

/-- A second fetched alert record. -/
def recB : AlertRecord := ⟨"a2", "ctx-a2"⟩

/-- A fetched unsent-queue entry. -/
def hitU : UnsentHit := ⟨"u1", ⟨"host1", "subj", "msg"⟩⟩

/-! ### Structural lemmas about the dispatcher's inner loop -/

/-- The inner loop never touches either delete API: its trace contains no
record deletes and no unsent-entry deletes. -/
lemma dispatchSubAlerts_no_deletes (cat : AlertCategory) (w : World)
    (subs : List SubAlertSource) (si ii : Nat) :
    (dispatchSubAlerts cat w subs si ii).trace.countP isDeleteRecordEvt = 0
      ∧ (dispatchSubAlerts cat w subs si ii).trace.countP isDeleteUnsentEvt = 0 := by
  induction subs generalizing si ii with
  | nil => simp [dispatchSubAlerts]
  | cons a rest ih =>
    cases hs : w.sendRes si with
    | ok =>
      have h := ih (si + 1) ii
      simp [dispatchSubAlerts, hs, List.countP_cons, isDeleteRecordEvt,
        isDeleteUnsentEvt] at h ⊢
      exact h
    | notOk =>
      cases hi : w.insertRes ii with
      | ok =>
        have h := ih (si + 1) (ii + 1)
        simp [dispatchSubAlerts, hs, hi, List.countP_cons, isDeleteRecordEvt,
          isDeleteUnsentEvt] at h ⊢
        exact h
      | storeUnavailable =>
        simp [dispatchSubAlerts, hs, hi, List.countP_cons, isDeleteRecordEvt,
          isDeleteUnsentEvt]
    | transportError =>
      cases hi : w.insertRes ii with
      | ok =>
        have h := ih (si + 1) (ii + 1)
        simp [dispatchSubAlerts, hs, hi, List.countP_cons, isDeleteRecordEvt,
          isDeleteUnsentEvt] at h ⊢
        exact h
      | storeUnavailable =>
        simp [dispatchSubAlerts, hs, hi, List.countP_cons, isDeleteRecordEvt,
          isDeleteUnsentEvt]

/-- Counting facts about a completed inner loop: one send per sub-alert,
every sub-alert accounted for by a successful send or a successful insert,
one successful insert per failed send, and no failed insert. -/
lemma dispatchSubAlerts_completed_counts (cat : AlertCategory) (w : World)
    (subs : List SubAlertSource) (si ii : Nat)
    (hc : (dispatchSubAlerts cat w subs si ii).completed = true) :
    (dispatchSubAlerts cat w subs si ii).trace.countP isSendEvt = subs.length
      ∧ (dispatchSubAlerts cat w subs si ii).trace.countP isSendOk
          + (dispatchSubAlerts cat w subs si ii).trace.countP isInsertOk = subs.length
      ∧ (dispatchSubAlerts cat w subs si ii).trace.countP isSendFail
          = (dispatchSubAlerts cat w subs si ii).trace.countP isInsertOk
      ∧ (dispatchSubAlerts cat w subs si ii).trace.countP isInsertFail = 0 := by
  induction subs generalizing si ii with
  | nil => simp [dispatchSubAlerts]
  | cons a rest ih =>
    cases hs : w.sendRes si with
    | ok =>
      simp only [dispatchSubAlerts, hs] at hc ⊢
      obtain ⟨h1, h2, h3, h4⟩ := ih (si + 1) ii hc
      simp [List.countP_cons, isSendEvt, isSendOk, isSendFail, isInsertOk,
        isInsertFail, h1, h2, h3, h4]
      omega
    | notOk =>
      cases hi : w.insertRes ii with
      | ok =>
        simp only [dispatchSubAlerts, hs, hi] at hc ⊢
        obtain ⟨h1, h2, h3, h4⟩ := ih (si + 1) (ii + 1) hc
        simp [List.countP_cons, isSendEvt, isSendOk, isSendFail, isInsertOk,
          isInsertFail, h1, h2, h3, h4]
        omega
      | storeUnavailable =>
        simp [dispatchSubAlerts, hs, hi] at hc
    | transportError =>
      cases hi : w.insertRes ii with
      | ok =>
        simp only [dispatchSubAlerts, hs, hi] at hc ⊢
        obtain ⟨h1, h2, h3, h4⟩ := ih (si + 1) (ii + 1) hc
        simp [List.countP_cons, isSendEvt, isSendOk, isSendFail, isInsertOk,
          isInsertFail, h1, h2, h3, h4]
        omega
      | storeUnavailable =>
        simp [dispatchSubAlerts, hs, hi] at hc

/-- A failed insert aborts the inner loop: a trace containing one cannot
belong to a completed run. -/
lemma dispatchSubAlerts_insertFail_not_completed (cat : AlertCategory) (w : World)
    (subs : List SubAlertSource) (si ii : Nat) (m : UnsentMessage)
    (hmem : Event.insertUnsent m InsertResult.storeUnavailable
      ∈ (dispatchSubAlerts cat w subs si ii).trace) :
    (dispatchSubAlerts cat w subs si ii).completed = false := by
  cases hcomp : (dispatchSubAlerts cat w subs si ii).completed with
  | false => rfl
  | true =>
    have h := (dispatchSubAlerts_completed_counts cat w subs si ii hcomp).2.2.2
    rw [List.countP_eq_zero] at h
    exact absurd (by simp [isInsertFail]) (h _ hmem)

/-- Every insert the inner loop makes persists exactly the formatter output
for one of the sub-alerts of the list. -/
lemma dispatchSubAlerts_insert_mem (cat : AlertCategory) (w : World)
    (subs : List SubAlertSource) (si ii : Nat) (m : UnsentMessage) (r : InsertResult)
    (hmem : Event.insertUnsent m r ∈ (dispatchSubAlerts cat w subs si ii).trace) :
    ∃ a ∈ subs, m = mkUnsent cat a := by
  induction subs generalizing si ii with
  | nil => simp [dispatchSubAlerts] at hmem
  | cons a rest ih =>
    cases hs : w.sendRes si with
    | ok =>
      simp only [dispatchSubAlerts, hs, List.mem_cons] at hmem
      rcases hmem with h | h | h
      · exact absurd h (by simp)
      · exact absurd h (by simp)
      · obtain ⟨x, hx, he⟩ := ih (si + 1) ii h
        exact ⟨x, List.mem_cons_of_mem _ hx, he⟩
    | notOk =>
      cases hi : w.insertRes ii with
      | ok =>
        simp only [dispatchSubAlerts, hs, hi, List.mem_cons] at hmem
        rcases hmem with h | h | h
        · exact absurd h (by simp)
        · exact ⟨a, List.mem_cons_self _ _, by simp at h; exact h.1⟩
        · obtain ⟨x, hx, he⟩ := ih (si + 1) (ii + 1) h
          exact ⟨x, List.mem_cons_of_mem _ hx, he⟩
      | storeUnavailable =>
        simp only [dispatchSubAlerts, hs, hi, List.mem_cons] at hmem
        rcases hmem with h | h | h
        · exact absurd h (by simp)
        · exact ⟨a, List.mem_cons_self _ _, by simp at h; exact h.1⟩
        · simp at h
    | transportError =>
      cases hi : w.insertRes ii with
      | ok =>
        simp only [dispatchSubAlerts, hs, hi, List.mem_cons] at hmem
        rcases hmem with h | h | h
        · exact absurd h (by simp)
        · exact ⟨a, List.mem_cons_self _ _, by simp at h; exact h.1⟩
        · obtain ⟨x, hx, he⟩ := ih (si + 1) (ii + 1) h
          exact ⟨x, List.mem_cons_of_mem _ hx, he⟩
      | storeUnavailable =>
        simp only [dispatchSubAlerts, hs, hi, List.mem_cons] at hmem
        rcases hmem with h | h | h
        · exact absurd h (by simp)
        · exact ⟨a, List.mem_cons_self _ _, by simp at h; exact h.1⟩
        · simp at h

/-- Every text the inner loop sends is the banner-decorated formatter output
for one of the sub-alerts of the list. -/
lemma dispatchSubAlerts_send_mem (cat : AlertCategory) (w : World)
    (subs : List SubAlertSource) (si ii : Nat) (t : String) (r : SendResult)
    (hmem : Event.send t r ∈ (dispatchSubAlerts cat w subs si ii).trace) :
    ∃ a ∈ subs, t = dispatchText (getSubjectFunc cat a) a.host (getMessageFunc cat a) := by
  induction subs generalizing si ii with
  | nil => simp [dispatchSubAlerts] at hmem
  | cons a rest ih =>
    cases hs : w.sendRes si with
    | ok =>
      simp only [dispatchSubAlerts, hs, List.mem_cons] at hmem
      rcases hmem with h | h | h
      · exact ⟨a, List.mem_cons_self _ _, by simp at h; exact h.1⟩
      · exact absurd h (by simp)
      · obtain ⟨x, hx, he⟩ := ih (si + 1) ii h
        exact ⟨x, List.mem_cons_of_mem _ hx, he⟩
    | notOk =>
      cases hi : w.insertRes ii with
      | ok =>
        simp only [dispatchSubAlerts, hs, hi, List.mem_cons] at hmem
        rcases hmem with h | h | h
        · exact ⟨a, List.mem_cons_self _ _, by simp at h; exact h.1⟩
        · exact absurd h (by simp)
        · obtain ⟨x, hx, he⟩ := ih (si + 1) (ii + 1) h
          exact ⟨x, List.mem_cons_of_mem _ hx, he⟩
      | storeUnavailable =>
        simp only [dispatchSubAlerts, hs, hi, List.mem_cons] at hmem
        rcases hmem with h | h | h
        · exact ⟨a, List.mem_cons_self _ _, by simp at h; exact h.1⟩
        · simp at h
        · simp at h
    | transportError =>
      cases hi : w.insertRes ii with
      | ok =>
        simp only [dispatchSubAlerts, hs, hi, List.mem_cons] at hmem
        rcases hmem with h | h | h
        · exact ⟨a, List.mem_cons_self _ _, by simp at h; exact h.1⟩
        · exact absurd h (by simp)
        · obtain ⟨x, hx, he⟩ := ih (si + 1) (ii + 1) h
          exact ⟨x, List.mem_cons_of_mem _ hx, he⟩
      | storeUnavailable =>
        simp only [dispatchSubAlerts, hs, hi, List.mem_cons] at hmem
        rcases hmem with h | h | h
        · exact ⟨a, List.mem_cons_self _ _, by simp at h; exact h.1⟩
        · simp at h
        · simp at h

/-- Record processing never touches the unsent-entry delete API. -/
lemma processRecord_no_deleteUnsent (cat : AlertCategory) (w : World)
    (jsonParse : String → Option (List SubAlertSource)) (record : AlertRecord)
    (si ii di : Nat) :
    (processRecord cat w jsonParse record si ii di).trace.countP isDeleteUnsentEvt = 0 := by
  cases hp : jsonParse record.alertContexts with
  | none => simp [processRecord, hp]
  | some subs =>
    have hds := (dispatchSubAlerts_no_deletes cat w subs si ii).2
    cases hcomp : (dispatchSubAlerts cat w subs si ii).completed with
    | false => simpa [processRecord, hp, hcomp] using hds
    | true =>
      cases hd : w.deleteRes di <;>
        simp [processRecord, hp, hcomp, hd, List.countP_append, hds, isDeleteUnsentEvt]

/-- The whole per-category dispatcher task never touches the unsent-entry
delete API. -/
lemma dispatchRecords_no_deleteUnsent (cat : AlertCategory) (w : World)
    (jsonParse : String → Option (List SubAlertSource)) (recs : List AlertRecord)
    (si ii di : Nat) :
    (dispatchRecords cat w jsonParse recs si ii di).trace.countP isDeleteUnsentEvt = 0 := by
  induction recs generalizing si ii di with
  | nil => simp [dispatchRecords]
  | cons record rest ih =>
    have hr := processRecord_no_deleteUnsent cat w jsonParse record si ii di
    cases hcomp : (processRecord cat w jsonParse record si ii di).completed with
    | false => simpa [dispatchRecords, hcomp] using hr
    | true =>
      simp [dispatchRecords, hcomp, List.countP_append, hr, ih]

/-- The drainer never inserts into any index. -/
lemma drainUnsent_no_inserts (w : World) (hits : List UnsentHit) (si di : Nat) :
    (drainUnsent w hits si di).trace.countP isInsertEvt = 0 := by
  induction hits generalizing si di with
  | nil => simp [drainUnsent]
  | cons x rest ih =>
    cases hs : w.sendRes si with
    | ok =>
      cases hd : w.deleteRes di with
      | ok => simp [drainUnsent, hs, hd, List.countP_cons, isInsertEvt, ih]
      | notFound => simp [drainUnsent, hs, hd, List.countP_cons, isInsertEvt]
      | storeUnavailable => simp [drainUnsent, hs, hd, List.countP_cons, isInsertEvt]
    | notOk => simp [drainUnsent, hs, List.countP_cons, isInsertEvt]
    | transportError => simp [drainUnsent, hs, List.countP_cons, isInsertEvt]

/-- Drainer traces keep a full grace-period wait between any send and any
later send. -/
lemma drainUnsent_graceSeparated (w : World) (hits : List UnsentHit) (si di : Nat) :
    graceSeparated (drainUnsent w hits si di).trace = true := by
  induction hits generalizing si di with
  | nil => simp [drainUnsent, graceSeparated]
  | cons x rest ih =>
    cases hs : w.sendRes si with
    | ok =>
      cases hd : w.deleteRes di with
      | ok =>
        simp [drainUnsent, hs, hd, graceSeparated, noSendBeforeGrace, ih]
      | notFound => simp [drainUnsent, hs, hd, graceSeparated, noSendBeforeGrace]
      | storeUnavailable => simp [drainUnsent, hs, hd, graceSeparated, noSendBeforeGrace]
    | notOk => simp [drainUnsent, hs, graceSeparated, noSendBeforeGrace]
    | transportError => simp [drainUnsent, hs, graceSeparated, noSendBeforeGrace]

/-- In drainer traces every unsent-entry delete directly follows an
`{ok:true}` send. -/
lemma drainUnsent_removalPairing (w : World) (hits : List UnsentHit) (si di : Nat) :
    removalPairing (drainUnsent w hits si di).trace = true := by
  induction hits generalizing si di with
  | nil => simp [drainUnsent, removalPairing]
  | cons x rest ih =>
    cases hs : w.sendRes si with
    | ok =>
      cases hd : w.deleteRes di with
      | ok => simp [drainUnsent, hs, hd, removalPairing, ih]
      | notFound => simp [drainUnsent, hs, hd, removalPairing]
      | storeUnavailable => simp [drainUnsent, hs, hd, removalPairing]
    | notOk => simp [drainUnsent, hs, removalPairing]
    | transportError => simp [drainUnsent, hs, removalPairing]

/-- Every unsent-entry delete in a drainer trace belongs to a fetched entry
whose own message was sent and acknowledged `{ok:true}` in the same trace. -/
lemma drainUnsent_delete_mem (w : World) (hits : List UnsentHit) (si di : Nat)
    (i : String) (r : DeleteResult)
    (hmem : Event.deleteUnsent i r ∈ (drainUnsent w hits si di).trace) :
    ∃ x ∈ hits, x.id = i
      ∧ Event.send (drainText x.src) SendResult.ok ∈ (drainUnsent w hits si di).trace := by
  induction hits generalizing si di with
  | nil => simp [drainUnsent] at hmem
  | cons x rest ih =>
    cases hs : w.sendRes si with
    | ok =>
      cases hd : w.deleteRes di with
      | ok =>
        simp only [drainUnsent, hs, hd, List.mem_cons] at hmem
        rcases hmem with h | h | h | h
        · exact absurd h (by simp)
        · exact ⟨x, List.mem_cons_self _ _, by simp at h; exact h.1.symm,
            by simp [drainUnsent, hs, hd]⟩
        · exact absurd h (by simp)
        · obtain ⟨y, hy, hid, hsend⟩ := ih (si + 1) (di + 1) h
          exact ⟨y, List.mem_cons_of_mem _ hy, hid,
            by simp only [drainUnsent, hs, hd, List.mem_cons]; right; right; right; exact hsend⟩
      | notFound =>
        simp only [drainUnsent, hs, hd, List.mem_cons] at hmem
        rcases hmem with h | h | h
        · exact absurd h (by simp)
        · refine ⟨x, List.mem_cons_self _ _, by simp at h; exact h.1.symm, ?_⟩
          simp [drainUnsent, hs, hd]
        · simp at h
      | storeUnavailable =>
        simp only [drainUnsent, hs, hd, List.mem_cons] at hmem
        rcases hmem with h | h | h
        · exact absurd h (by simp)
        · refine ⟨x, List.mem_cons_self _ _, by simp at h; exact h.1.symm, ?_⟩
          simp [drainUnsent, hs, hd]
        · simp at h
    | notOk =>
      simp only [drainUnsent, hs, List.mem_cons] at hmem
      rcases hmem with h | h
      · exact absurd h (by simp)
      · simp at h
    | transportError =>
      simp only [drainUnsent, hs, List.mem_cons] at hmem
      rcases hmem with h | h
      · exact absurd h (by simp)
      · simp at h

/-- A trace with no record-delete events has no successful record delete. -/
lemma countP_deleteRecordOk_zero (tr : List Event)
    (h : tr.countP isDeleteRecordEvt = 0) : tr.countP isDeleteRecordOk = 0 := by
  rw [List.countP_eq_zero] at h ⊢
  intro e he
  have := h e he
  cases e <;> simp_all [isDeleteRecordEvt, isDeleteRecordOk]

/-- Two worlds whose sends succeed at exactly the same calls — regardless of
whether the failures are `{ok:false}` acknowledgments or transport
rejections — and whose inserts agree drive the inner loop identically:
same trace up to the kind of send failure recorded, same counters, same
completion. -/
lemma dispatchSubAlerts_outcome_equiv (cat : AlertCategory) (w1 w2 : World)
    (hsend : ∀ n, w1.sendRes n = SendResult.ok ↔ w2.sendRes n = SendResult.ok)
    (hins : ∀ n, w1.insertRes n = w2.insertRes n)
    (subs : List SubAlertSource) (si ii : Nat) :
    (dispatchSubAlerts cat w1 subs si ii).trace.map censorSend
        = (dispatchSubAlerts cat w2 subs si ii).trace.map censorSend
      ∧ (dispatchSubAlerts cat w1 subs si ii).sendIdx
          = (dispatchSubAlerts cat w2 subs si ii).sendIdx
      ∧ (dispatchSubAlerts cat w1 subs si ii).insertIdx
          = (dispatchSubAlerts cat w2 subs si ii).insertIdx
      ∧ (dispatchSubAlerts cat w1 subs si ii).completed
          = (dispatchSubAlerts cat w2 subs si ii).completed := by
  induction subs generalizing si ii with
  | nil => simp [dispatchSubAlerts]
  | cons a rest ih =>
    cases h1 : w1.sendRes si with
    | ok =>
      have h2 : w2.sendRes si = SendResult.ok := (hsend si).mp h1
      obtain ⟨e1, e2, e3, e4⟩ := ih (si + 1) ii
      simp [dispatchSubAlerts, h1, h2, censorSend, e1, e2, e3, e4]
    | notOk =>
      have h2 : w2.sendRes si ≠ SendResult.ok := fun hh => by
        rw [(hsend si).mpr hh] at h1; exact SendResult.noConfusion h1
      cases h2c : w2.sendRes si with
      | ok => exact absurd h2c h2
      | notOk =>
        cases hi : w1.insertRes ii with
        | ok =>
          have hi2 : w2.insertRes ii = InsertResult.ok := by rw [← hins ii]; exact hi
          obtain ⟨e1, e2, e3, e4⟩ := ih (si + 1) (ii + 1)
          simp [dispatchSubAlerts, h1, h2c, hi, hi2, censorSend, e1, e2, e3, e4]
        | storeUnavailable =>
          have hi2 : w2.insertRes ii = InsertResult.storeUnavailable := by
            rw [← hins ii]; exact hi
          simp [dispatchSubAlerts, h1, h2c, hi, hi2, censorSend]
      | transportError =>
        cases hi : w1.insertRes ii with
        | ok =>
          have hi2 : w2.insertRes ii = InsertResult.ok := by rw [← hins ii]; exact hi
          obtain ⟨e1, e2, e3, e4⟩ := ih (si + 1) (ii + 1)
          simp [dispatchSubAlerts, h1, h2c, hi, hi2, censorSend, e1, e2, e3, e4]
        | storeUnavailable =>
          have hi2 : w2.insertRes ii = InsertResult.storeUnavailable := by
            rw [← hins ii]; exact hi
          simp [dispatchSubAlerts, h1, h2c, hi, hi2, censorSend]
    | transportError =>
      have h2 : w2.sendRes si ≠ SendResult.ok := fun hh => by
        rw [(hsend si).mpr hh] at h1; exact SendResult.noConfusion h1
      cases h2c : w2.sendRes si with
      | ok => exact absurd h2c h2
      | notOk =>
        cases hi : w1.insertRes ii with
        | ok =>
          have hi2 : w2.insertRes ii = InsertResult.ok := by rw [← hins ii]; exact hi
          obtain ⟨e1, e2, e3, e4⟩ := ih (si + 1) (ii + 1)
          simp [dispatchSubAlerts, h1, h2c, hi, hi2, censorSend, e1, e2, e3, e4]
        | storeUnavailable =>
          have hi2 : w2.insertRes ii = InsertResult.storeUnavailable := by
            rw [← hins ii]; exact hi
          simp [dispatchSubAlerts, h1, h2c, hi, hi2, censorSend]
      | transportError =>
        cases hi : w1.insertRes ii with
        | ok =>
          have hi2 : w2.insertRes ii = InsertResult.ok := by rw [← hins ii]; exact hi
          obtain ⟨e1, e2, e3, e4⟩ := ih (si + 1) (ii + 1)
          simp [dispatchSubAlerts, h1, h2c, hi, hi2, censorSend, e1, e2, e3, e4]
        | storeUnavailable =>
          have hi2 : w2.insertRes ii = InsertResult.storeUnavailable := by
            rw [← hins ii]; exact hi
          simp [dispatchSubAlerts, h1, h2c, hi, hi2, censorSend]

/-! ### Main theorems -/

/-- C1: for every alert record the dispatcher processes to completion, the
record is removed from its source index exactly once, and each sub-alert it
contained is either delivered exactly once or inserted exactly once into the
unsent-message index — never both, never neither; an empty decoded list
yields removal with zero sends and zero inserts. -/
theorem dispatcher_record_exactly_once (cat : AlertCategory) (w : World)
    (jsonParse : String → Option (List SubAlertSource)) (record : AlertRecord)
    (si ii di : Nat) (subs : List SubAlertSource)
    (hparse : jsonParse record.alertContexts = some subs)
    (hdone : (processRecord cat w jsonParse record si ii di).completed = true) :
    (processRecord cat w jsonParse record si ii di).trace.countP isDeleteRecordEvt = 1
      ∧ (processRecord cat w jsonParse record si ii di).trace.countP isDeleteRecordOk = 1
      ∧ (processRecord cat w jsonParse record si ii di).trace.countP isSendEvt = subs.length
      ∧ (processRecord cat w jsonParse record si ii di).trace.countP isSendOk
          + (processRecord cat w jsonParse record si ii di).trace.countP isInsertOk
          = subs.length
      ∧ (processRecord cat w jsonParse record si ii di).trace.countP isSendFail
          = (processRecord cat w jsonParse record si ii di).trace.countP isInsertOk
      ∧ (processRecord cat w jsonParse record si ii di).trace.countP isInsertFail = 0
      ∧ (subs = [] →
          (processRecord cat w jsonParse record si ii di).trace
            = [Event.deleteRecord record.id DeleteResult.ok]) := by
  cases hcomp : (dispatchSubAlerts cat w subs si ii).completed with
  | false => simp [processRecord, hparse, hcomp] at hdone
  | true =>
    cases hd : w.deleteRes di with
    | notFound => simp [processRecord, hparse, hcomp, hd] at hdone
    | storeUnavailable => simp [processRecord, hparse, hcomp, hd] at hdone
    | ok =>
      obtain ⟨h1, h2, h3, h4⟩ := dispatchSubAlerts_completed_counts cat w subs si ii hcomp
      obtain ⟨hnoR, _⟩ := dispatchSubAlerts_no_deletes cat w subs si ii
      have hnoROk := countP_deleteRecordOk_zero _ hnoR
      refine ⟨?_, ?_, ?_, ?_, ?_, ?_, ?_⟩
      · simp [processRecord, hparse, hcomp, hd, List.countP_append, hnoR, isDeleteRecordEvt]
      · simp [processRecord, hparse, hcomp, hd, List.countP_append, hnoROk, isDeleteRecordOk]
      · simp [processRecord, hparse, hcomp, hd, List.countP_append, h1, isSendEvt]
      · simp [processRecord, hparse, hcomp, hd, List.countP_append, h2, isSendOk, isInsertOk]
      · simp [processRecord, hparse, hcomp, hd, List.countP_append, h3, isSendFail, isInsertOk]
      · simp [processRecord, hparse, hcomp, hd, List.countP_append, h4, isInsertFail]
      · intro he
        subst he
        simp [processRecord, hparse, hd, dispatchSubAlerts]

/-- Witness for C1: Slack delivers the systemd sub-alert and rejects the
disk-space one; the record is still processed to completion and the counting
facts hold. -/
theorem dispatcher_record_exactly_once_witness :
    parseTwo recA.alertContexts = some [sampleSystemd, sampleDisk]
    ∧ (processRecord AlertCategory.systemd wMixed parseTwo recA 0 0 0).completed = true
    ∧ (processRecord AlertCategory.systemd wMixed parseTwo recA 0 0 0).trace.countP
        isDeleteRecordEvt = 1
    ∧ (processRecord AlertCategory.systemd wMixed parseTwo recA 0 0 0).trace.countP isSendOk
        + (processRecord AlertCategory.systemd wMixed parseTwo recA 0 0 0).trace.countP
            isInsertOk = 2 :=
  ⟨rfl, rfl,
    (dispatcher_record_exactly_once AlertCategory.systemd wMixed parseTwo recA 0 0 0
      [sampleSystemd, sampleDisk] rfl rfl).1,
    (dispatcher_record_exactly_once AlertCategory.systemd wMixed parseTwo recA 0 0 0
      [sampleSystemd, sampleDisk] rfl rfl).2.2.2.1⟩

/-- C2: the formatter agrees with the per-category table of the
specification for every sub-alert, and a disk-space sub-alert with
`filesystem.used.pct = 0.92` yields subject `High disk usage on /` and body
exactly `92%`. -/
theorem formatter_matches_spec_table :
    (∀ cat a, getSubjectFunc cat a = specSubject cat a
      ∧ getMessageFunc cat a = specBody cat a)
    ∧ getSubjectFunc AlertCategory.diskSpace sampleDisk = "High disk usage on /"
    ∧ getMessageFunc AlertCategory.diskSpace sampleDisk = "92%" := by
  refine ⟨fun cat a => ⟨?_, ?_⟩, by decide, ?_⟩
  · cases cat <;> rfl
  · cases cat <;> rfl
  · have h : sampleDisk.fsUsedPct * 100 = (92 : ℚ) := by
      norm_num [sampleDisk, blankSub]
    simp [getMessageFunc, jsNumToString, h]
    rfl

/-- C3: every unsent-queue body the dispatcher persists for a record is
exactly `{host, subject, message}` of one of the record's sub-alerts as the
formatter produced them — the repeated-emoji banner appears only in the text
sent to Slack, never in the persisted body. -/
theorem unsent_roundtrip_no_banner (cat : AlertCategory) (w : World)
    (jsonParse : String → Option (List SubAlertSource)) (record : AlertRecord)
    (si ii di : Nat) (subs : List SubAlertSource)
    (hparse : jsonParse record.alertContexts = some subs) :
    (∀ m r, Event.insertUnsent m r ∈ (processRecord cat w jsonParse record si ii di).trace →
      ∃ a ∈ subs, m = mkUnsent cat a)
    ∧ (∀ t r, Event.send t r ∈ (processRecord cat w jsonParse record si ii di).trace →
      ∃ a ∈ subs, t = dispatchText (getSubjectFunc cat a) a.host (getMessageFunc cat a)) := by
  have key : ∀ e, e ∈ (processRecord cat w jsonParse record si ii di).trace →
      e ∈ (dispatchSubAlerts cat w subs si ii).trace
        ∨ ∃ dr, e = Event.deleteRecord record.id dr := by
    intro e he
    cases hcomp : (dispatchSubAlerts cat w subs si ii).completed with
    | false =>
      left
      simpa [processRecord, hparse, hcomp] using he
    | true =>
      cases hd : w.deleteRes di with
      | ok =>
        have htr : (processRecord cat w jsonParse record si ii di).trace
            = (dispatchSubAlerts cat w subs si ii).trace
              ++ [Event.deleteRecord record.id DeleteResult.ok] := by
          simp [processRecord, hparse, hcomp, hd]
        rw [htr] at he
        rcases List.mem_append.mp he with h | h
        · exact Or.inl h
        · exact Or.inr ⟨DeleteResult.ok, by simpa using h⟩
      | notFound =>
        have htr : (processRecord cat w jsonParse record si ii di).trace
            = (dispatchSubAlerts cat w subs si ii).trace
              ++ [Event.deleteRecord record.id DeleteResult.notFound] := by
          simp [processRecord, hparse, hcomp, hd]
        rw [htr] at he
        rcases List.mem_append.mp he with h | h
        · exact Or.inl h
        · exact Or.inr ⟨DeleteResult.notFound, by simpa using h⟩
      | storeUnavailable =>
        have htr : (processRecord cat w jsonParse record si ii di).trace
            = (dispatchSubAlerts cat w subs si ii).trace
              ++ [Event.deleteRecord record.id DeleteResult.storeUnavailable] := by
          simp [processRecord, hparse, hcomp, hd]
        rw [htr] at he
        rcases List.mem_append.mp he with h | h
        · exact Or.inl h
        · exact Or.inr ⟨DeleteResult.storeUnavailable, by simpa using h⟩
  constructor
  · intro m r hmem
    rcases key _ hmem with h | ⟨dr, h⟩
    · exact dispatchSubAlerts_insert_mem cat w subs si ii m r h
    · exact absurd h (by simp)
  · intro t r hmem
    rcases key _ hmem with h | ⟨dr, h⟩
    · exact dispatchSubAlerts_send_mem cat w subs si ii t r h
    · exact absurd h (by simp)

/-- Witness for C3: a rejected systemd sub-alert is persisted as
`{host1, Down systemd service, nginx is failed}` with no banner. -/
theorem unsent_roundtrip_no_banner_witness :
    parseSystemdOne recA.alertContexts = some [sampleSystemd]
    ∧ Event.insertUnsent ⟨"host1", "Down systemd service", "nginx is failed"⟩
        InsertResult.ok
        ∈ (processRecord AlertCategory.systemd wSendNotOk parseSystemdOne recA 0 0 0).trace
    ∧ ∃ a ∈ [sampleSystemd],
        (⟨"host1", "Down systemd service", "nginx is failed"⟩ : UnsentMessage)
          = mkUnsent AlertCategory.systemd a :=
  ⟨rfl, by decide,
    (unsent_roundtrip_no_banner AlertCategory.systemd wSendNotOk parseSystemdOne recA 0 0 0
      [sampleSystemd] rfl).1 _ InsertResult.ok (by decide)⟩

/-- C4: a send resolving `{ok:false}` is handled identically to a send that
rejects with a transport error: two worlds that differ only in which kind of
delivery failure they return produce the same record processing up to the
recorded failure kind; and after any failed send with a successful requeue,
the loop continues with the remaining sub-alerts. -/
theorem notOk_equals_transport_error (cat : AlertCategory) (w1 w2 : World)
    (jsonParse : String → Option (List SubAlertSource)) (record : AlertRecord)
    (si ii di : Nat)
    (hsend : ∀ n, w1.sendRes n = SendResult.ok ↔ w2.sendRes n = SendResult.ok)
    (hins : ∀ n, w1.insertRes n = w2.insertRes n)
    (hdel : ∀ n, w1.deleteRes n = w2.deleteRes n) :
    ((processRecord cat w1 jsonParse record si ii di).trace.map censorSend
        = (processRecord cat w2 jsonParse record si ii di).trace.map censorSend
      ∧ (processRecord cat w1 jsonParse record si ii di).completed
          = (processRecord cat w2 jsonParse record si ii di).completed)
    ∧ (∀ a rest, w1.sendRes si ≠ SendResult.ok → w1.insertRes ii = InsertResult.ok →
        (dispatchSubAlerts cat w1 (a :: rest) si ii).trace
          = Event.send (dispatchText (getSubjectFunc cat a) a.host (getMessageFunc cat a))
                (w1.sendRes si)
              :: Event.insertUnsent (mkUnsent cat a) InsertResult.ok
              :: (dispatchSubAlerts cat w1 rest (si + 1) (ii + 1)).trace
        ∧ (dispatchSubAlerts cat w1 (a :: rest) si ii).completed
            = (dispatchSubAlerts cat w1 rest (si + 1) (ii + 1)).completed) := by
  constructor
  · cases hp : jsonParse record.alertContexts with
    | none => simp [processRecord, hp]
    | some subs =>
      obtain ⟨e1, e2, e3, e4⟩ := dispatchSubAlerts_outcome_equiv cat w1 w2 hsend hins subs si ii
      cases hcomp : (dispatchSubAlerts cat w1 subs si ii).completed with
      | false =>
        have hcomp2 : (dispatchSubAlerts cat w2 subs si ii).completed = false :=
          e4 ▸ hcomp
        simp [processRecord, hp, hcomp, hcomp2, e1]
      | true =>
        have hcomp2 : (dispatchSubAlerts cat w2 subs si ii).completed = true :=
          e4 ▸ hcomp
        cases hd : w1.deleteRes di with
        | ok =>
          have hd2 : w2.deleteRes di = DeleteResult.ok := by rw [← hdel di]; exact hd
          simp [processRecord, hp, hcomp, hcomp2, hd, hd2, e1, censorSend]
        | notFound =>
          have hd2 : w2.deleteRes di = DeleteResult.notFound := by rw [← hdel di]; exact hd
          simp [processRecord, hp, hcomp, hcomp2, hd, hd2, e1, censorSend]
        | storeUnavailable =>
          have hd2 : w2.deleteRes di = DeleteResult.storeUnavailable := by
            rw [← hdel di]; exact hd
          simp [processRecord, hp, hcomp, hcomp2, hd, hd2, e1, censorSend]
  · intro a rest hfail hok
    cases hs : w1.sendRes si with
    | ok => exact absurd hs hfail
    | notOk => simp [dispatchSubAlerts, hs, hok]
    | transportError => simp [dispatchSubAlerts, hs, hok]

/-- Witness for C4: an `{ok:false}` world and a transport-error world give
the same censored record processing on the systemd scenario, and the
`{ok:false}` sub-alert is requeued while the loop goes on. -/
theorem notOk_equals_transport_error_witness :
    (∀ n, wSendNotOk.sendRes n = SendResult.ok ↔ wSendTransport.sendRes n = SendResult.ok)
    ∧ (processRecord AlertCategory.systemd wSendNotOk parseSystemdOne recA 0 0 0).trace.map
        censorSend
        = (processRecord AlertCategory.systemd wSendTransport parseSystemdOne
            recA 0 0 0).trace.map censorSend
    ∧ (dispatchSubAlerts AlertCategory.systemd wSendNotOk [sampleSystemd] 0 0).trace
        = Event.send (dispatchText (getSubjectFunc AlertCategory.systemd sampleSystemd)
              sampleSystemd.host (getMessageFunc AlertCategory.systemd sampleSystemd))
            (wSendNotOk.sendRes 0)
          :: Event.insertUnsent (mkUnsent AlertCategory.systemd sampleSystemd) InsertResult.ok
          :: (dispatchSubAlerts AlertCategory.systemd wSendNotOk [] 1 1).trace :=
  ⟨fun n => by simp [wSendNotOk, wSendTransport],
    ((notOk_equals_transport_error AlertCategory.systemd wSendNotOk wSendTransport
        parseSystemdOne recA 0 0 0 (fun n => by simp [wSendNotOk, wSendTransport])
        (fun n => rfl) (fun n => rfl)).1).1,
    (((notOk_equals_transport_error AlertCategory.systemd wSendNotOk wSendTransport
        parseSystemdOne recA 0 0 0 (fun n => by simp [wSendNotOk, wSendTransport])
        (fun n => rfl) (fun n => rfl)).2) sampleSystemd [] (by decide) rfl).1⟩

/-- C5: when a drainer send fails — transport rejection or `{ok:false}` —
the drainer stops with an error: the entry is not deleted, and no further
send or delete of any later entry happens. -/
theorem drainer_fatal_on_send_failure (w : World) (x : UnsentHit) (rest : List UnsentHit)
    (si di : Nat) (hfail : w.sendRes si ≠ SendResult.ok) :
    drainUnsent w (x :: rest) si di
      = ⟨[Event.send (drainText x.src) (w.sendRes si)], false⟩ := by
  cases hs : w.sendRes si with
  | ok => exact absurd hs hfail
  | notOk => simp [drainUnsent, hs]
  | transportError => simp [drainUnsent, hs]

/-- Witness for C5: a `{ok:false}` acknowledgment on the first entry ends
the drainer with only that one send in the trace. -/
theorem drainer_fatal_on_send_failure_witness :
    wSendNotOk.sendRes 0 ≠ SendResult.ok
    ∧ drainUnsent wSendNotOk [hitU] 0 0
        = ⟨[Event.send (drainText hitU.src) (wSendNotOk.sendRes 0)], false⟩ :=
  ⟨by decide, drainer_fatal_on_send_failure wSendNotOk hitU [] 0 0 (by decide)⟩

/-- C6: for every unsent entry the drainer delivers, the order is: send
acknowledged `{ok:true}`, then the entry's delete, then a full grace-period
wait before any further send; and in every drainer trace any two sends are
separated by a full grace-period wait. -/
theorem drainer_delete_then_grace_order (w : World) :
    (∀ hits si di, graceSeparated (drainUnsent w hits si di).trace = true)
    ∧ (∀ x rest si di, w.sendRes si = SendResult.ok → w.deleteRes di = DeleteResult.ok →
        (drainUnsent w (x :: rest) si di).trace
          = Event.send (drainText x.src) SendResult.ok
            :: Event.deleteUnsent x.id DeleteResult.ok
            :: Event.wait slackGracePeriod
            :: (drainUnsent w rest (si + 1) (di + 1)).trace) := by
  refine ⟨fun hits si di => drainUnsent_graceSeparated w hits si di, ?_⟩
  intro x rest si di hs hd
  simp [drainUnsent, hs, hd]

/-- Witness for C6: one entry, everything succeeds: send, delete, then the
5000 ms wait. -/
theorem drainer_delete_then_grace_order_witness :
    wAllOk.sendRes 0 = SendResult.ok ∧ wAllOk.deleteRes 0 = DeleteResult.ok
    ∧ (drainUnsent wAllOk [hitU] 0 0).trace
        = Event.send (drainText hitU.src) SendResult.ok
          :: Event.deleteUnsent hitU.id DeleteResult.ok
          :: Event.wait slackGracePeriod
          :: (drainUnsent wAllOk [] 1 1).trace :=
  ⟨rfl, rfl, (drainer_delete_then_grace_order wAllOk).2 hitU [] 0 0 rfl rfl⟩

/-- C7: if, after a sub-alert's delivery failure, the insert into the
unsent-message index itself fails, the dispatcher never deletes the
originating record and the record's processing does not complete. -/
theorem insert_failure_preserves_record (cat : AlertCategory) (w : World)
    (jsonParse : String → Option (List SubAlertSource)) (record : AlertRecord)
    (si ii di : Nat) (m : UnsentMessage)
    (hmem : Event.insertUnsent m InsertResult.storeUnavailable
      ∈ (processRecord cat w jsonParse record si ii di).trace) :
    (processRecord cat w jsonParse record si ii di).trace.countP isDeleteRecordEvt = 0
      ∧ (processRecord cat w jsonParse record si ii di).completed = false := by
  cases hp : jsonParse record.alertContexts with
  | none => simp [processRecord, hp] at hmem
  | some subs =>
    cases hcomp : (dispatchSubAlerts cat w subs si ii).completed with
    | false =>
      constructor
      · simpa [processRecord, hp, hcomp] using
          (dispatchSubAlerts_no_deletes cat w subs si ii).1
      · simp [processRecord, hp, hcomp]
    | true =>
      exfalso
      cases hd : w.deleteRes di with
      | ok =>
        have htr : (processRecord cat w jsonParse record si ii di).trace
            = (dispatchSubAlerts cat w subs si ii).trace
              ++ [Event.deleteRecord record.id DeleteResult.ok] := by
          simp [processRecord, hp, hcomp, hd]
        rw [htr] at hmem
        rcases List.mem_append.mp hmem with h | h
        · exact absurd hcomp (by
            simp [dispatchSubAlerts_insertFail_not_completed cat w subs si ii m h])
        · simp at h
      | notFound =>
        have htr : (processRecord cat w jsonParse record si ii di).trace
            = (dispatchSubAlerts cat w subs si ii).trace
              ++ [Event.deleteRecord record.id DeleteResult.notFound] := by
          simp [processRecord, hp, hcomp, hd]
        rw [htr] at hmem
        rcases List.mem_append.mp hmem with h | h
        · exact absurd hcomp (by
            simp [dispatchSubAlerts_insertFail_not_completed cat w subs si ii m h])
        · simp at h
      | storeUnavailable =>
        have htr : (processRecord cat w jsonParse record si ii di).trace
            = (dispatchSubAlerts cat w subs si ii).trace
              ++ [Event.deleteRecord record.id DeleteResult.storeUnavailable] := by
          simp [processRecord, hp, hcomp, hd]
        rw [htr] at hmem
        rcases List.mem_append.mp hmem with h | h
        · exact absurd hcomp (by
            simp [dispatchSubAlerts_insertFail_not_completed cat w subs si ii m h])
        · simp at h

/-- Witness for C7: the systemd sub-alert fails to send and the requeue
insert fails too; the record delete never happens. -/
theorem insert_failure_preserves_record_witness :
    Event.insertUnsent (mkUnsent AlertCategory.systemd sampleSystemd)
        InsertResult.storeUnavailable
        ∈ (processRecord AlertCategory.systemd wInsertFail parseSystemdOne recA 0 0 0).trace
    ∧ (processRecord AlertCategory.systemd wInsertFail parseSystemdOne
        recA 0 0 0).trace.countP isDeleteRecordEvt = 0
    ∧ (processRecord AlertCategory.systemd wInsertFail parseSystemdOne
        recA 0 0 0).completed = false :=
  ⟨by decide,
    (insert_failure_preserves_record AlertCategory.systemd wInsertFail parseSystemdOne
      recA 0 0 0 (mkUnsent AlertCategory.systemd sampleSystemd) (by decide)).1,
    (insert_failure_preserves_record AlertCategory.systemd wInsertFail parseSystemdOne
      recA 0 0 0 (mkUnsent AlertCategory.systemd sampleSystemd) (by decide)).2⟩

/-- C8 counterexample: neither delete call is wrapped in a try/catch, so a
`NotFound` delete failure is not logged-and-skipped; it aborts the task.
With two records whose lists decode empty and a store whose deletes report
`NotFound`, the dispatcher stops at the first record's failed delete: the
task does not complete and the second record is never touched, contradicting
the claim that `NotFound` is non-fatal and processing continues. -/
theorem delete_notFound_fatal_cx :
    (dispatchRecords AlertCategory.logErrors wDeleteNotFound parseEmpty
        [recA, recB] 0 0 0).completed = false
    ∧ (dispatchRecords AlertCategory.logErrors wDeleteNotFound parseEmpty
        [recA, recB] 0 0 0).trace
        = [Event.deleteRecord "a1" DeleteResult.notFound] := by
  constructor
  · rfl
  · rfl

/-- C8 amended: any delete failure — `NotFound` as much as
`StoreUnavailable` — is uncaught and aborts the enclosing task: the
dispatcher does not go on to the next record, and the drainer does not go on
to the next entry. -/
theorem delete_failure_aborts_task (cat : AlertCategory) (w : World)
    (jsonParse : String → Option (List SubAlertSource)) (record : AlertRecord)
    (rest : List AlertRecord) (si ii di : Nat) (subs : List SubAlertSource)
    (hparse : jsonParse record.alertContexts = some subs)
    (hcomp : (dispatchSubAlerts cat w subs si ii).completed = true)
    (hdel : w.deleteRes di ≠ DeleteResult.ok) :
    (processRecord cat w jsonParse record si ii di).completed = false
    ∧ dispatchRecords cat w jsonParse (record :: rest) si ii di
        = ⟨(dispatchSubAlerts cat w subs si ii).trace
            ++ [Event.deleteRecord record.id (w.deleteRes di)], false⟩
    ∧ (∀ w2 x rest2 si2 di2, w2.sendRes si2 = SendResult.ok →
        w2.deleteRes di2 ≠ DeleteResult.ok →
        drainUnsent w2 (x :: rest2) si2 di2
          = ⟨[Event.send (drainText x.src) SendResult.ok,
              Event.deleteUnsent x.id (w2.deleteRes di2)], false⟩) := by
  refine ⟨?_, ?_, ?_⟩
  · cases hd : w.deleteRes di with
    | ok => exact absurd hd hdel
    | notFound => simp [processRecord, hparse, hcomp, hd]
    | storeUnavailable => simp [processRecord, hparse, hcomp, hd]
  · cases hd : w.deleteRes di with
    | ok => exact absurd hd hdel
    | notFound => simp [dispatchRecords, processRecord, hparse, hcomp, hd]
    | storeUnavailable => simp [dispatchRecords, processRecord, hparse, hcomp, hd]
  · intro w2 x rest2 si2 di2 hs2 hd2
    cases hd : w2.deleteRes di2 with
    | ok => exact absurd hd hd2
    | notFound => simp [drainUnsent, hs2, hd]
    | storeUnavailable => simp [drainUnsent, hs2, hd]

/-- Witness for the amended C8: a record with an empty decoded list and a
`NotFound` delete leaves the record processing incomplete. -/
theorem delete_failure_aborts_task_witness :
    parseEmpty recA.alertContexts = some []
    ∧ (dispatchSubAlerts AlertCategory.logErrors wDeleteNotFound [] 0 0).completed = true
    ∧ wDeleteNotFound.deleteRes 0 ≠ DeleteResult.ok
    ∧ (processRecord AlertCategory.logErrors wDeleteNotFound parseEmpty
        recA 0 0 0).completed = false :=
  ⟨rfl, rfl, by decide,
    (delete_failure_aborts_task AlertCategory.logErrors wDeleteNotFound parseEmpty recA []
      0 0 0 [] rfl rfl (by decide)).1⟩

/-- C9: when decoding a record's embedded sub-alert list fails, processing
of that record aborts fatally with an empty trace: nothing is sent, nothing
is inserted, and the record is not removed. -/
theorem decode_failure_aborts_record (cat : AlertCategory) (w : World)
    (jsonParse : String → Option (List SubAlertSource)) (record : AlertRecord)
    (si ii di : Nat)
    (hparse : jsonParse record.alertContexts = none) :
    processRecord cat w jsonParse record si ii di = ⟨[], si, ii, di, false⟩ := by
  simp [processRecord, hparse]

/-- Witness for C9: a throwing `JSON.parse` yields the empty, incomplete
record result. -/
theorem decode_failure_aborts_record_witness :
    parseFail recA.alertContexts = none
    ∧ processRecord AlertCategory.logErrors wAllOk parseFail recA 0 0 0
        = ⟨[], 0, 0, 0, false⟩ :=
  ⟨rfl, decode_failure_aborts_record AlertCategory.logErrors wAllOk parseFail recA 0 0 0 rfl⟩

/-- C10: the dispatcher never deletes from the unsent-message index; the
drainer never inserts; every unsent-entry delete in a drainer trace directly
follows a send acknowledged `{ok:true}`, and that delete belongs to a
fetched entry whose own message was the acknowledged send. -/
theorem unsent_queue_invariant :
    (∀ cat w jsonParse recs si ii di,
        (dispatchRecords cat w jsonParse recs si ii di).trace.countP isDeleteUnsentEvt = 0)
    ∧ (∀ w hits si di, (drainUnsent w hits si di).trace.countP isInsertEvt = 0)
    ∧ (∀ w hits si di, removalPairing (drainUnsent w hits si di).trace = true)
    ∧ (∀ w hits si di i r,
        Event.deleteUnsent i r ∈ (drainUnsent w hits si di).trace →
        ∃ x ∈ hits, x.id = i
          ∧ Event.send (drainText x.src) SendResult.ok ∈ (drainUnsent w hits si di).trace) :=
  ⟨fun cat w jsonParse recs si ii di =>
      dispatchRecords_no_deleteUnsent cat w jsonParse recs si ii di,
    fun w hits si di => drainUnsent_no_inserts w hits si di,
    fun w hits si di => drainUnsent_removalPairing w hits si di,
    fun w hits si di i r hmem => drainUnsent_delete_mem w hits si di i r hmem⟩

/-- Witness for C10: the single successfully drained entry's delete is
justified by its own acknowledged send. -/
theorem unsent_queue_invariant_witness :
    Event.deleteUnsent "u1" DeleteResult.ok ∈ (drainUnsent wAllOk [hitU] 0 0).trace
    ∧ ∃ x ∈ [hitU], x.id = "u1"
        ∧ Event.send (drainText x.src) SendResult.ok ∈ (drainUnsent wAllOk [hitU] 0 0).trace :=
  ⟨by decide,
    unsent_queue_invariant.2.2.2 wAllOk [hitU] 0 0 "u1" DeleteResult.ok (by decide)⟩

end ElkNotifier
